import Mathlib

/-!
Verification development for the VOICE_Bot repository (two near-identical
FastAPI backends: `choice-bot-backend` and `voice-bot-backend`).

The definitions below are a shallow embedding of the Python source:
pure helpers become Lean functions, the per-connection WebSocket loop
becomes an explicit step function on a session-state type, and external
collaborators (Whisper transcription, Gemini generation, gTTS synthesis,
Chroma similarity ranking) are passed in as function parameters, exactly
at the call boundaries the source uses.
-/

namespace VoiceBot

/-! ## Name detection (`app/main.py`, `detect_user_name`, both variants)

The Python function searches, with `re.search` and `re.IGNORECASE`, for
`phrase\s+([a-zA-Z]+)` and returns `match.group(1).capitalize()`.
We embed the regex fragments the three patterns actually use:
a case-insensitive literal phrase, then one-or-more whitespace
(`\s`), then a maximal run of one-or-more ASCII letters (`[a-zA-Z]+`),
searched at the leftmost position where the whole pattern matches.
Since `\s` and `[a-zA-Z]` are disjoint character classes, the greedy
no-backtracking reading used here coincides with Python's semantics. -/

/-- `\s` (ASCII semantics): space, tab, newline, carriage return,
vertical tab, form feed. -/
def isReSpace (c : Char) : Bool :=
  c = ' ' || c = '\t' || c = '\n' || c = '\x0d' || c = '\x0b' || c = '\x0c'

/-- Python `str.strip()` (ASCII whitespace): drop leading and trailing
whitespace characters. -/
def pyStrip (s : String) : String :=
  String.mk (((s.data.dropWhile isReSpace).reverse.dropWhile isReSpace).reverse)

/-- `[a-zA-Z]`. -/
def isReAlpha (c : Char) : Bool :=
  ('a' ≤ c && c ≤ 'z') || ('A' ≤ c && c ≤ 'Z')

/-- Match a literal phrase (stored lowercase) case-insensitively against a
prefix of the text; on success return the remaining text. -/
def matchLit : List Char → List Char → Option (List Char)
  | [], rest => some rest
  | _ :: _, [] => none
  | p :: ps, c :: cs => if c.toLower = p then matchLit ps cs else none

/-- Try the pattern `phrase\s+([a-zA-Z]+)` at the start of `cs`; on success
return the captured group (the maximal letter run after the whitespace). -/
def matchPatternAt (phrase : List Char) (cs : List Char) : Option (List Char) :=
  match matchLit phrase cs with
  | none => none
  | some rest =>
    let rest2 := rest.dropWhile isReSpace
    if rest.takeWhile isReSpace = [] then none
    else
      let name := rest2.takeWhile isReAlpha
      if name = [] then none else some name

/-- `re.search`: try the pattern at each position, leftmost match wins. -/
def searchPattern (phrase : List Char) : List Char → Option (List Char)
  | [] => matchPatternAt phrase []
  | c :: cs =>
    match matchPatternAt phrase (c :: cs) with
    | some name => some name
    | none => searchPattern phrase cs

/-- Python `str.capitalize()`: first character uppercased, the rest
lowercased. -/
def pyCapitalize (s : List Char) : List Char :=
  match s with
  | [] => []
  | c :: cs => c.toUpper :: cs.map Char.toLower

/-- The apostrophe character, used by the third source pattern. -/
def apos : Char := Char.ofNat 39

/-- The literal phrases of the three regex patterns of `detect_user_name`,
in source order: `my name is`, `i am`, `i`-apostrophe-`m`. -/
def namePatterns : List (List Char) :=
  ["my name is".data, "i am".data, ['i', apos, 'm']]

/-- The body of the `for pattern in patterns:` loop in `detect_user_name`.
In the source, `return None` is indented inside the loop body (at the same
depth as `if match:`), so the first iteration always returns — either the
captured name or `None`; patterns after the first are never tried. -/
def detectLoop : List (List Char) → List Char → Option String
  | [], _ => none
  | p :: _, cs =>
    match searchPattern p cs with
    | some name => some (String.mk (pyCapitalize name))
    | none => none

/-- `detect_user_name` (`app/main.py`, identical in both variants). -/
def detect_user_name (text : String) : Option String :=
  detectLoop namePatterns text.data

/-- The loop as the three-pattern list and the surrounding comments intend
it (`return None` dedented to fall after the loop): try every pattern in
order, return the first capture. Used only to exhibit the divergence
between the code and its documented intent. -/
def detectLoopIntended : List (List Char) → List Char → Option String
  | [], _ => none
  | p :: ps, cs =>
    match searchPattern p cs with
    | some name => some (String.mk (pyCapitalize name))
    | none => detectLoopIntended ps cs

/-- Intended variant of `detect_user_name`. -/
def detect_user_name_intended (text : String) : Option String :=
  detectLoopIntended namePatterns text.data

/-! ## History primitives (`app/main.py` lines 251-253 / 183-186)

Both variants update the chat history with
`history.append((user, q)); history.append((assistant, r));
history = history[-10:]`. -/

inductive Role where
  | user
  | assistant
deriving DecidableEq, Repr

/-- Python `l[-10:]` generalized: the last `n` elements of a list. -/
def lastN (n : Nat) (l : List α) : List α :=
  l.drop (l.length - n)

/-- One history update as written in the source: append the user entry,
append the assistant entry, keep the last 10 entries. -/
def hstep (h : List (Role × String)) (q r : String) : List (Role × String) :=
  lastN 10 (h ++ [(Role.user, q), (Role.assistant, r)])

/-- History after a sequence of completed turns, each turn contributing a
(query, response) pair, starting from the empty history of a fresh
session. -/
def histAfter (ts : List (String × String)) : List (Role × String) :=
  ts.foldl (fun h t => hstep h t.1 t.2) []

/-- Flatten (query, response) exchanges into history entries in
conversational order. -/
def flattenPairs : List (String × String) → List (Role × String)
  | [] => []
  | t :: ts => (Role.user, t.1) :: (Role.assistant, t.2) :: flattenPairs ts

/-! ## Session state and the WebSocket message loop

`websocket_endpoint` keeps, per connection, the dict
`{"user_name": None, "language": "en", "chat_history": [], "rag_chain": ...}`.
The `rag_chain` field is an opaque collaborator handle and is carried by
the `Collab` parameter below instead of the state. `user_name` is `None`
until detection sets it; detection never produces the empty string, so the
Python truthiness test `if not session_data["user_name"]` is `isNone`
here. -/

structure SessionState where
  user_name : Option String
  language : String
  chat_history : List (Role × String)
deriving DecidableEq, Repr

/-- Fresh session as built at handshake (`user_name=None, language="en",
chat_history=[]`). -/
def initialSession : SessionState :=
  { user_name := none, language := "en", chat_history := [] }

/-- External collaborators, at exactly the call boundaries of the source:
Whisper transcription of the decoded audio payload, the RAG engine call
(`rag_service.process_query(query, session_data, ...)`), and TTS synthesis
(`generate_speech_audio(text, language)`).  The source wraps the engine
and TTS calls in try/except and substitutes safe fallbacks, so they are
total functions here. -/
structure Collab where
  transcribe : String → String
  runEngine : String → SessionState → String
  synth : String → String → String

/-- Inbound messages, dispatched on the JSON `type` field; `other` covers
every unrecognized type tag. -/
inductive InMsg where
  | language_switch (language : String)
  | text_query (text : String)
  | audio_query (audio_data : String)
  | other (ty : String)
deriving DecidableEq, Repr

/-- Outbound messages sent by the loop. -/
inductive OutMsg where
  | status (message : String)
  | errorMsg (message : String)
  | user_message (text : String)
  | response (text : String) (audioRef : String)
deriving DecidableEq, Repr

/-- Name-capture step (voice variant, `main.py` lines 199-203): only when
`user_name` is unset, run detection and keep a first hit. -/
def nameUpdate (s : SessionState) (q : String) : SessionState :=
  if s.user_name.isNone then
    match detect_user_name q with
    | some n => { s with user_name := some n }
    | none => s
  else s

/-- One resolved-query turn of the voice variant: name capture, engine
call, TTS, structured response, then the history append/trim of
lines 251-253.  `pre` carries the echo message the audio path sends
first. -/
def runTurn (c : Collab) (s : SessionState) (q : String) (pre : List OutMsg) :
    SessionState × List OutMsg :=
  let s1 := nameUpdate s q
  let r := c.runEngine q s1
  let audio := c.synth r s1.language
  ({ s1 with chat_history := hstep s1.chat_history q r },
   pre ++ [OutMsg.response r audio])

/-- One iteration of the voice variant's ACTIVE receive loop
(`voice-bot-backend/app/main.py` lines 156-253). -/
def wsStep (c : Collab) (s : SessionState) (m : InMsg) :
    SessionState × List OutMsg :=
  match m with
  | InMsg.language_switch lang =>
    ({ s with language := lang },
     [OutMsg.status ("Language set to " ++ lang)])
  | InMsg.text_query t => runTurn c s (pyStrip t) []
  | InMsg.audio_query ad =>
    let q := c.transcribe ad
    runTurn c s q [OutMsg.user_message q]
  | InMsg.other _ => (s, [OutMsg.errorMsg "Unsupported message type."])

/-- The voice variant's loop over a message sequence, collecting outbound
messages in order. -/
def wsRun (c : Collab) : List InMsg → SessionState → SessionState × List OutMsg
  | [], s => (s, [])
  | m :: ms, s =>
    let first := wsStep c s m
    let rest := wsRun c ms first.1
    (rest.1, first.2 ++ rest.2)

/-! ## The choice variant's loop

In `choice-bot-backend/app/main.py` the block from `# -- RAG Procession
and State Update --` (line 148) through the history trim (line 186) is
indented inside the `elif data["type"] == "audio_query":` branch, so a
`text_query` only assigns the local `query_text` and the iteration ends;
an unrecognized type matches no branch and is silently skipped.  The
locals `query_text` and `user_name` persist across loop iterations and
the misindented `if user_name:` (line 152) reads the stale local, so they
are part of the loop state here. -/

structure ChoiceLoopState where
  session : SessionState
  localName : Option String
  localQuery : Option String
deriving DecidableEq, Repr

/-- Fresh choice-variant loop state (locals unbound, modeled as `none`;
whenever the source reads them they have been assigned). -/
def choiceInit : ChoiceLoopState :=
  { session := initialSession, localName := none, localQuery := none }

/-- One iteration of the choice variant's ACTIVE receive loop
(`choice-bot-backend/app/main.py` lines 116-186). -/
def choiceStep (c : Collab) (st : ChoiceLoopState) (m : InMsg) :
    ChoiceLoopState × List OutMsg :=
  match m with
  | InMsg.language_switch lang =>
    ({ st with session := { st.session with language := lang } },
     [OutMsg.status ("Language set to " ++ lang)])
  | InMsg.text_query t =>
    -- `query_text = data["text"]` (no strip); nothing else runs this
    -- iteration: the processing block is inside the audio branch.
    ({ st with localQuery := some t }, [])
  | InMsg.audio_query ad =>
    let q := c.transcribe ad
    let localName :=
      if st.session.user_name.isNone then detect_user_name q else st.localName
    let s1 :=
      if localName.isSome then { st.session with user_name := localName }
      else st.session
    let r := c.runEngine q s1
    let audio := c.synth r s1.language
    ({ session := { s1 with chat_history := hstep s1.chat_history q r },
       localName := localName, localQuery := some q },
     [OutMsg.user_message q, OutMsg.response r audio])
  | InMsg.other _ => (st, [])

/-- The choice variant's loop over a message sequence, collecting
outbound messages in order. -/
def choiceRun (c : Collab) : List InMsg → ChoiceLoopState → ChoiceLoopState × List OutMsg
  | [], st => (st, [])
  | m :: ms, st =>
    let first := choiceStep c st m
    let rest := choiceRun c ms first.1
    (rest.1, first.2 ++ rest.2)

/-! ## Knowledge store (`choice-bot-backend/core/vector_store.py`)

Chroma is external; it is modeled as what the source uses it as: a named
collection per tenant holding the committed text chunks.  Document
loading and splitting (`RecursiveCharacterTextSplitter`) are collaborator
work whose output is the `splits` list handed to `Chroma.from_documents`;
the similarity search inside `as_retriever` is the external relevance
ranking `rank`, applied to the contents of the one collection the
retriever is bound to, truncated to `k` results. -/

structure KnowledgeStore where
  collections : String → List String

/-- `collection_name = f"client_{client_id}"` (lines 128 and 158). -/
def collection_name (client_id : String) : String :=
  "client_" ++ client_id

/-- `load_and_embed_documents`: fail on an empty document set, otherwise
commit the splits into the tenant-named collection (adding to it if it
exists).  Only the named collection changes. -/
def load_and_embed_documents (store : KnowledgeStore) (client_id : String)
    (splits : List String) : KnowledgeStore × Bool :=
  if splits.isEmpty then (store, false)
  else
    ({ collections := fun c =>
        if c = collection_name client_id then store.collections c ++ splits
        else store.collections c },
     true)

/-- `get_vector_retriever`: bind to the collection named after
`client_id` and return a query function giving the top-`k` passages of
that collection under the external relevance ranking. -/
def get_vector_retriever (rank : String → List String → List String)
    (store : KnowledgeStore) (client_id : String) (k : Nat := 4) :
    String → List String :=
  fun query => (rank query (store.collections (collection_name client_id))).take k

/-! ## Conversation engine

### Voice variant (`voice-bot-backend/core/rag_service.py`, `process_query`)

The revised `process_query` bypasses the composed chain: it fetches a
retriever itself, short-circuits on no retriever or no documents, and
otherwise calls Gemini directly on
`f"Context:\n{context}\n\nQuestion: {query}"`.  It never reads
`session_data` (no name, language, or history reaches generation).
`gen` is the external generation backend. -/

/-- The direct generation prompt of the voice variant (line 90). -/
def voiceFullPrompt (docs : List String) (query : String) : String :=
  "Context:\n" ++ String.intercalate "\n\n" docs ++ "\n\nQuestion: " ++ query

/-- Voice-variant `process_query` (lines 60-104).  `retr` is the result
of `get_vector_retriever(client_id)` (`none` when no collection can be
opened). -/
def voice_process_query (gen : String → String)
    (retr : Option (String → List String)) (query : String)
    (session_data : SessionState) : String :=
  match retr with
  | none => "I don't have any documents for this client. Please ingest documents first."
  | some retrieve =>
    let docs := retrieve query
    if docs.isEmpty then
      "I couldn't find relevant information in the uploaded documents."
    else
      gen (voiceFullPrompt docs query)

/-! ### Choice variant (`choice-bot-backend/core/rag_service.py`)

`create_rag_chain` composes retriever → `format_docs` → prompt template →
LLM → string parser; `process_query` resolves the language instruction
and invokes the chain.  The generation backend receives the rendered
system template plus the history slot and question. -/

/-- `format_docs` (line 66-68). -/
def format_docs (docs : List String) : String :=
  String.intercalate "\n\n" docs

/-- Single-quote character as a string (the source template literals use
it). -/
def sq : String := String.singleton apos

/-- `SYSTEM_PROMPT_TEMPLATE` of the choice variant with its
`{user_name}`, `{language_instruction}` and `{context}` placeholders
substituted, as `ChatPromptTemplate` renders it. -/
def choiceSystemPrompt (user_name language_instruction context : String) : String :=
  "\nYou are \"Choice\", a professional real estate assistant bot.\n" ++
  "Your task is to answer user questions accurately based *only* on the provided context information.\n" ++
  "If the context does not contain information to answer the question, state that you cannot find the specific details in your available documents. Do not make up information.\n\n" ++
  "Greeting: Start the very first conversation with: " ++ sq ++
  "Hello! My name is CHOICE, how can I assist you today?" ++ sq ++ "\n\n" ++
  "Personalization: If a user shares their name (" ++ user_name ++
  "), use it to address them in subsequent responses where appropriate (e.g., \"Certainly, " ++
  user_name ++ ", here is the information...\").\n\n" ++
  "Language: Respond entirely in " ++ language_instruction ++
  ". Do not switch languages unless requested.\n\n" ++
  "Context Information:\n" ++ context ++ "\n"

/-- The message list the chain hands to the LLM: rendered system prompt,
the `chat_history` placeholder contents, and the user question. -/
structure Prompt where
  system : String
  history : List (Role × String)
  question : String
deriving DecidableEq, Repr

/-- The chain input dict built by the choice variant's `process_query`. -/
structure ChainInput where
  question : String
  chat_history : List (Role × String)
  user_name : String
  language_instruction : String
deriving DecidableEq, Repr

/-- The composed chain of `create_rag_chain` (lines 74-101): the parallel
dict step feeds the whole chain input to the retriever, formats the
retrieved documents into the context block, renders the prompt and
invokes the LLM unconditionally — there is no empty-retrieval branch. -/
def choice_rag_chain (retrieve : ChainInput → List String)
    (gen : Prompt → String) (input : ChainInput) : String :=
  let context := format_docs (retrieve input)
  gen { system := choiceSystemPrompt input.user_name input.language_instruction context,
        history := input.chat_history,
        question := input.question }

/-- `language_map = {"en": "English", "hi": "Hindi"}` with
`.get(code, "English")` (choice `process_query` lines 123-124). -/
def resolve_language_instruction (code : String) : String :=
  if code = "en" then "English" else if code = "hi" then "Hindi" else "English"

/-- The chain input assembled by the choice variant's `process_query`
(lines 126-133): question, history, `user_name` defaulted to `"user"`,
and the resolved language instruction (`session_data.get("language","en")`
is the session's language field, present from handshake on). -/
def choice_chain_input (query : String) (session_data : SessionState) : ChainInput :=
  { question := query,
    chat_history := session_data.chat_history,
    user_name := session_data.user_name.getD "user",
    language_instruction := resolve_language_instruction session_data.language }

/-- Choice-variant `process_query` (lines 105-137). -/
def choice_process_query (retrieve : ChainInput → List String)
    (gen : Prompt → String) (query : String) (session_data : SessionState) : String :=
  choice_rag_chain retrieve gen (choice_chain_input query session_data)

/-! ## Session registry (`active_sessions`, endpoint lifecycle)

`active_sessions` is a Python dict from the WebSocket connection object
to its session dict; connection objects are identified by `Nat` here.
The endpoint inserts on successful chain construction and the `finally`
block deletes the entry however the loop exits (disconnect or unhandled
exception); on a handshake `ValueError` it returns without inserting. -/

abbrev Registry := List (Nat × SessionState)

/-- Python dict assignment `reg[k] = v`: replace in place if the key is
present (insertion order kept), else append. -/
def dictSet (reg : Registry) (k : Nat) (v : SessionState) : Registry :=
  if reg.any (fun p => p.1 = k) then
    reg.map (fun p => if p.1 = k then (k, v) else p)
  else reg ++ [(k, v)]

/-- Python `del reg[k]` for a present key (the source guards with
`if websocket in active_sessions`). -/
def dictDel (reg : Registry) (k : Nat) : Registry :=
  reg.filter (fun p => p.1 ≠ k)

/-- How the ACTIVE loop ends: client disconnect
(`WebSocketDisconnect`) or any unhandled exception. -/
inductive ExitKind where
  | disconnect
  | unhandledError
deriving DecidableEq, Repr

/-- Registry effect of one full `websocket_endpoint` lifecycle for
connection `ws`: `setup = none` models the handshake `ValueError` path
(close 1008, never registered); `setup = some s` registers the session,
runs the loop to its exit `e`, and runs the `finally` cleanup. -/
def websocket_endpoint_registry (reg : Registry) (ws : Nat)
    (setup : Option SessionState) (e : ExitKind) : Registry :=
  match setup with
  | none => reg
  | some s =>
    let reg1 := dictSet reg ws s
    -- the receive loop runs and exits via `e`; both exit kinds are
    -- caught (lines 255-258) and fall through to the same `finally`
    match e with
    | ExitKind.disconnect =>
      if reg1.any (fun p => p.1 = ws) then dictDel reg1 ws else reg1
    | ExitKind.unhandledError =>
      if reg1.any (fun p => p.1 = ws) then dictDel reg1 ws else reg1

/-! ## Concrete fixtures and predicates used by the theorems -/

/-- Histories reachable by the loop are flattened exchange lists. -/
def HistShape (h : List (Role × String)) : Prop :=
  ∃ ps : List (String × String), h = flattenPairs ps

/-- Coupling invariant of the choice variant's loop: whenever the
session's `user_name` is set, the stale local `user_name` variable holds
the same value.  This is exactly what makes the misindented
`if user_name:` re-assignment (choice `main.py` line 152) write back the
value already stored.  It holds at `choiceInit` vacuously and is
preserved by every step. -/
def ChoiceNameInv (st : ChoiceLoopState) : Prop :=
  ∀ n : String, st.session.user_name = some n → st.localName = some n

/-- A concrete collaborator bundle for evaluating the loop on explicit
inputs. -/
def collab0 : Collab :=
  { transcribe := fun a => a,
    runEngine := fun q _ => "reply to " ++ q,
    synth := fun _ _ => "audio-ref" }

/-- A concrete knowledge store: tenant `a` has one ingested passage,
every other collection is empty. -/
def store0 : KnowledgeStore :=
  { collections := fun c => if c = collection_name "a" then ["passage A"] else [] }

/-! ## Supporting lemmas -/

theorem lastN_eq_reverse (n : Nat) (l : List α) :
    lastN n l = (l.reverse.take n).reverse := by
  have h := List.rtake_eq_reverse_take_reverse l n
  simpa [List.rtake, lastN] using h

theorem lastN_length (n : Nat) (l : List α) :
    (lastN n l).length = min l.length n := by
  simp [lastN]
  omega

/-- Trimming to the last `n` is stable: older elements already discarded
never influence a later trim. -/
theorem lastN_append_lastN (n : Nat) (x y : List α) :
    lastN n (lastN n x ++ y) = lastN n (x ++ y) := by
  simp only [lastN_eq_reverse, List.reverse_append, List.reverse_reverse]
  rw [List.take_append_eq_append_take, List.take_append_eq_append_take,
    List.take_take, Nat.min_eq_left (Nat.sub_le _ _)]

theorem flattenPairs_append (a b : List (String × String)) :
    flattenPairs (a ++ b) = flattenPairs a ++ flattenPairs b := by
  induction a with
  | nil => rfl
  | cons t ts ih => simp [flattenPairs, ih]

theorem flattenPairs_length (ps : List (String × String)) :
    (flattenPairs ps).length = 2 * ps.length := by
  induction ps with
  | nil => rfl
  | cons t ts ih => simp [flattenPairs, ih]; omega

theorem flattenPairs_drop (m : Nat) (ps : List (String × String)) :
    flattenPairs (ps.drop m) = (flattenPairs ps).drop (2 * m) := by
  induction m generalizing ps with
  | zero => simp
  | succ k ih =>
    cases ps with
    | nil => simp [flattenPairs]
    | cons t ts =>
      have h2 : 2 * (k + 1) = 2 * k + 1 + 1 := by omega
      simp [flattenPairs, h2, List.drop_succ_cons, ih]

theorem lastN_flattenPairs (k : Nat) (ps : List (String × String)) :
    lastN (2 * k) (flattenPairs ps) = flattenPairs (lastN k ps) := by
  unfold lastN
  rw [flattenPairs_length]
  have h : 2 * ps.length - 2 * k = 2 * (ps.length - k) := by omega
  rw [h, ← flattenPairs_drop]

/-- One source history update, acting on a flattened exchange list:
append the new exchange and keep the last five exchanges. -/
theorem hstep_flattenPairs (ps : List (String × String)) (q r : String) :
    hstep (flattenPairs ps) q r = flattenPairs (lastN 5 (ps ++ [(q, r)])) := by
  have h : flattenPairs ps ++ [(Role.user, q), (Role.assistant, r)]
      = flattenPairs (ps ++ [(q, r)]) := by
    rw [flattenPairs_append]; rfl
  rw [hstep, h, show (10 : Nat) = 2 * 5 from rfl, lastN_flattenPairs]

/-- The history after any number of turns is exactly the flattening of
the five most recent exchanges. -/
theorem histAfter_eq (ts : List (String × String)) :
    histAfter ts = flattenPairs (lastN 5 ts) := by
  induction ts using List.reverseRecOn with
  | nil => rfl
  | append_singleton ts t ih =>
    have h1 : histAfter (ts ++ [t]) = hstep (histAfter ts) t.1 t.2 := by
      simp [histAfter, List.foldl_append]
    rw [h1, ih, hstep_flattenPairs, lastN_append_lastN]

theorem flattenPairs_get (ps : List (String × String)) (i : Nat)
    (hi : i < (flattenPairs ps).length) :
    ((flattenPairs ps).get ⟨i, hi⟩).1
      = if i % 2 = 0 then Role.user else Role.assistant := by
  induction ps generalizing i with
  | nil => simp [flattenPairs] at hi
  | cons t ts ih =>
    match i with
    | 0 => rfl
    | 1 => rfl
    | (j + 2) =>
      have hj : j < (flattenPairs ts).length := by
        simpa [flattenPairs] using Nat.lt_of_add_lt_add_right hi
      have hmod : (j + 2) % 2 = j % 2 := by omega
      have hget : ((flattenPairs (t :: ts)).get ⟨j + 2, hi⟩)
          = (flattenPairs ts).get ⟨j, hj⟩ := rfl
      rw [hget, ih, hmod]

theorem flattenPairs_get? (ps : List (String × String)) (i : Nat)
    (hi : i < (flattenPairs ps).length) :
    ((flattenPairs ps)[i]?.map Prod.fst)
      = some (if i % 2 = 0 then Role.user else Role.assistant) := by
  rw [List.getElem?_eq_getElem hi]
  have h := flattenPairs_get ps i hi
  simpa using h

theorem nameUpdate_chat_history (s : SessionState) (q : String) :
    (nameUpdate s q).chat_history = s.chat_history := by
  by_cases h : s.user_name.isNone <;>
    cases hd : detect_user_name q <;> simp [nameUpdate, h, hd]

theorem nameUpdate_of_some (s : SessionState) (q : String) (n : String)
    (h : s.user_name = some n) : nameUpdate s q = s := by
  simp [nameUpdate, h]

theorem runTurn_chat_history (c : Collab) (s : SessionState) (q : String)
    (pre : List OutMsg) :
    (runTurn c s q pre).1.chat_history
      = hstep s.chat_history q (c.runEngine q (nameUpdate s q)) := by
  simp [runTurn, nameUpdate_chat_history]

theorem wsStep_shape (c : Collab) (s : SessionState) (m : InMsg)
    (h : HistShape s.chat_history) : HistShape (wsStep c s m).1.chat_history := by
  obtain ⟨ps, hps⟩ := h
  cases m with
  | language_switch lang => exact ⟨ps, hps⟩
  | other ty => exact ⟨ps, hps⟩
  | text_query t =>
    refine ⟨lastN 5 (ps ++ [(pyStrip t,
      c.runEngine (pyStrip t) (nameUpdate s (pyStrip t)))]), ?_⟩
    rw [wsStep, runTurn_chat_history, hps, hstep_flattenPairs]
  | audio_query ad =>
    refine ⟨lastN 5 (ps ++ [(c.transcribe ad,
      c.runEngine (c.transcribe ad) (nameUpdate s (c.transcribe ad)))]), ?_⟩
    rw [wsStep, runTurn_chat_history, hps, hstep_flattenPairs]

theorem wsRun_shape (c : Collab) (msgs : List InMsg) (s : SessionState)
    (h : HistShape s.chat_history) :
    HistShape (wsRun c msgs s).1.chat_history := by
  induction msgs generalizing s with
  | nil => exact h
  | cons m ms ih => exact ih (wsStep c s m).1 (wsStep_shape c s m h)

theorem wsStep_user_name (c : Collab) (s : SessionState) (m : InMsg)
    (n : String) (h : s.user_name = some n) :
    (wsStep c s m).1.user_name = some n := by
  cases m with
  | language_switch lang => simpa [wsStep] using h
  | other ty => simpa [wsStep] using h
  | text_query t => simp [wsStep, runTurn, nameUpdate_of_some s _ n h, h]
  | audio_query ad => simp [wsStep, runTurn, nameUpdate_of_some s _ n h, h]

theorem wsRun_user_name (c : Collab) (msgs : List InMsg) (s : SessionState)
    (n : String) (h : s.user_name = some n) :
    (wsRun c msgs s).1.user_name = some n := by
  induction msgs generalizing s with
  | nil => exact h
  | cons m ms ih => exact ih (wsStep c s m).1 (wsStep_user_name c s m n h)

theorem hstep_shape (h : List (Role × String)) (q r : String)
    (hs : HistShape h) : HistShape (hstep h q r) := by
  obtain ⟨ps, hps⟩ := hs
  exact ⟨lastN 5 (ps ++ [(q, r)]), by rw [hps, hstep_flattenPairs]⟩

theorem choiceStep_shape (c : Collab) (st : ChoiceLoopState) (m : InMsg)
    (h : HistShape st.session.chat_history) :
    HistShape (choiceStep c st m).1.session.chat_history := by
  obtain ⟨ps, hps⟩ := h
  cases m with
  | language_switch lang => exact ⟨ps, hps⟩
  | text_query t => exact ⟨ps, hps⟩
  | other ty => exact ⟨ps, hps⟩
  | audio_query ad =>
    refine hstep_shape _ _ _ ?_
    split <;> split <;> exact ⟨ps, hps⟩

theorem choiceRun_shape (c : Collab) (msgs : List InMsg) (st : ChoiceLoopState)
    (h : HistShape st.session.chat_history) :
    HistShape (choiceRun c msgs st).1.session.chat_history := by
  induction msgs generalizing st with
  | nil => exact h
  | cons m ms ih => exact ih (choiceStep c st m).1 (choiceStep_shape c st m h)

theorem choiceInit_nameInv : ChoiceNameInv choiceInit := by
  intro n hn
  cases hn

/-- One choice-variant step preserves the name-local coupling invariant
and, under it, never changes a set `user_name`: when the session name is
already set, detection is skipped and the misindented `if user_name:`
writes back the stale local, which the invariant pins to the stored
value. -/
theorem choiceStep_name (c : Collab) (st : ChoiceLoopState) (m : InMsg)
    (h : ChoiceNameInv st) :
    ChoiceNameInv (choiceStep c st m).1 ∧
    (∀ n, st.session.user_name = some n →
      (choiceStep c st m).1.session.user_name = some n) := by
  cases m with
  | language_switch lang => exact ⟨fun n hn => h n hn, fun n hn => hn⟩
  | text_query t => exact ⟨fun n hn => h n hn, fun n hn => hn⟩
  | other ty => exact ⟨h, fun n hn => hn⟩
  | audio_query ad =>
    rcases hu : st.session.user_name with _ | k
    · cases hd : detect_user_name (c.transcribe ad) with
      | none =>
        constructor
        · intro n hn
          simp [choiceStep, hu, hd] at hn
        · intro n hn
          simp at hn
      | some nm =>
        constructor
        · intro n hn
          simp [choiceStep, hu, hd] at hn ⊢
          exact hn
        · intro n hn
          simp at hn
    · have hl := h k hu
      constructor
      · intro n hn
        simp [choiceStep, hu, hl] at hn ⊢
        exact hn
      · intro n hn
        injection hn with hkn
        subst hkn
        simp [choiceStep, hu, hl]

theorem choiceRun_name (c : Collab) (msgs : List InMsg) (st : ChoiceLoopState)
    (h : ChoiceNameInv st) :
    ChoiceNameInv (choiceRun c msgs st).1 ∧
    (∀ n, st.session.user_name = some n →
      (choiceRun c msgs st).1.session.user_name = some n) := by
  induction msgs generalizing st with
  | nil => exact ⟨h, fun n hn => hn⟩
  | cons m ms ih =>
    obtain ⟨h1, h2⟩ := choiceStep_name c st m h
    obtain ⟨h3, h4⟩ := ih (choiceStep c st m).1 h1
    exact ⟨h3, fun n hn => h4 n (h2 n hn)⟩

theorem collection_name_injective (a b : String)
    (h : collection_name a = collection_name b) : a = b := by
  have hd := congrArg String.data h
  simp [collection_name, String.data_append] at hd
  exact String.ext hd

theorem endpoint_cleanup_eq (reg : Registry) (ws : Nat) (s : SessionState)
    (h : ∀ p ∈ reg, p.1 ≠ ws) (e : ExitKind) :
    websocket_endpoint_registry reg ws (some s) e = reg := by
  have hany : reg.any (fun p => p.1 = ws) = false := by
    simp only [List.any_eq_false, decide_eq_true_eq]
    exact h
  have hset : dictSet reg ws s = reg ++ [(ws, s)] := by
    simp [dictSet, hany]
  have hguard : (reg ++ [(ws, s)]).any (fun p => p.1 = ws) = true := by
    simp
  have hdel : dictDel (reg ++ [(ws, s)]) ws = reg := by
    simp only [dictDel, List.filter_append]
    rw [List.filter_eq_self.mpr, List.filter_cons]
    · simp
    · intro p hp
      simpa using h p hp
  cases e <;> simp [websocket_endpoint_registry, hset, hguard, hdel]

/-! ## Claim theorems -/

/-- C1: Tenant isolation.  The tenant-to-collection derivation
`client_{tenant}` is injective; ingesting documents under tenant `B`
leaves the retrieval results of any retriever bound to tenant `A ≠ B`
unchanged for every query and every relevance ranking; and, for any
relevance ranking that selects from the collection it is given (the
knowledge-store contract), every passage a tenant-`A` retriever returns
lies in `A`'s own collection.  Hence no query through `A`'s pipeline can
return or be influenced by passages ingested under `B`. -/
theorem claim1_tenant_isolation (A B : String) (hAB : A ≠ B) :
    collection_name A ≠ collection_name B ∧
    (∀ (rank : String → List String → List String) (store : KnowledgeStore)
      (splits : List String) (k : Nat) (q : String),
      get_vector_retriever rank (load_and_embed_documents store B splits).1 A k q
        = get_vector_retriever rank store A k q) ∧
    (∀ (rank : String → List String → List String),
      (∀ q ps x, x ∈ rank q ps → x ∈ ps) →
      ∀ (store : KnowledgeStore) (k : Nat) (q p : String),
        p ∈ get_vector_retriever rank store A k q →
        p ∈ store.collections (collection_name A)) := by
  have hname : collection_name A ≠ collection_name B :=
    fun h => hAB (collection_name_injective A B h)
  refine ⟨hname, ?_, ?_⟩
  · intro rank store splits k q
    unfold get_vector_retriever load_and_embed_documents
    by_cases hsp : splits.isEmpty <;> simp [hsp, hname]
  · intro rank hrank store k q p hp
    have hp2 : p ∈ rank q (store.collections (collection_name A)) :=
      List.mem_of_mem_take hp
    exact hrank _ _ _ hp2

/-- C1 witness: concrete tenants `a ≠ b`, a concrete store, the identity
ranking; ingestion under `b` does not change `a`'s retrieval, and `a`'s
one retrieved passage lies in `a`'s collection. -/
theorem claim1_tenant_isolation_witness :
    ("a" : String) ≠ "b" ∧
    collection_name "a" ≠ collection_name "b" ∧
    get_vector_retriever (fun _ ps => ps)
        (load_and_embed_documents store0 "b" ["passage B"]).1 "a" 4 "q"
      = get_vector_retriever (fun _ ps => ps) store0 "a" 4 "q" ∧
    "passage A" ∈ store0.collections (collection_name "a") := by
  have h := claim1_tenant_isolation "a" "b" (by decide)
  refine ⟨by decide, h.1, h.2.1 _ store0 _ 4 "q", ?_⟩
  exact h.2.2 (fun _ ps => ps) (fun _ _ _ hx => hx) store0 4 "q" "passage A"
    (by decide)

/-- C2: in the source, `return None` is indented inside the
`for pattern in patterns:` loop, so only the first pattern
(`my name is X`) is ever tried: a text matching `i am X` or the
apostrophe form but not `my name is X` yields no name, although the
claim (and the function's own comment and three-pattern list, restored
in `detect_user_name_intended`) says it yields `X` capitalized. -/
theorem claim2_name_detection_loop_bug :
    detect_user_name "i am alex" = none ∧
    detect_user_name ("i" ++ sq ++ "m sam") = none ∧
    detect_user_name "My Name is alex, hi" = some "Alex" ∧
    detect_user_name_intended "i am alex" = some "Alex" ∧
    detect_user_name_intended ("i" ++ sq ++ "m sam") = some "Sam" := by
  refine ⟨rfl, rfl, rfl, rfl, rfl⟩

/-- C3: in the voice variant every `text_query` in the ACTIVE loop is one
full conversational turn: the trimmed text becomes the query, the engine
is invoked on it, one structured response (text plus audio reference) is
emitted, and the (user, query), (assistant, response) entries are
appended to the history (then trimmed).  In the choice variant the whole
processing block is indented inside the `audio_query` branch, so a
`text_query` only stores the untrimmed text in a local and produces no
engine call, no response and no history change. -/
theorem claim3_text_query_turn :
    (∀ (c : Collab) (s : SessionState) (t : String),
      wsStep c s (InMsg.text_query t)
        = (let q := pyStrip t
           let s1 := nameUpdate s q
           let r := c.runEngine q s1
           let h2 := lastN 10 (s1.chat_history ++ [(Role.user, q), (Role.assistant, r)])
           ({ s1 with chat_history := h2 },
            [OutMsg.response r (c.synth r s1.language)]))) ∧
    (∀ (c : Collab) (st : ChoiceLoopState),
      choiceStep c st (InMsg.text_query "  What are your hours?  ")
        = ({ st with localQuery := some "  What are your hours?  " }, [])) :=
  ⟨fun _ _ _ => rfl, fun _ _ => rfl⟩

/-- C4 counterexample: with a retriever returning zero passages, the
choice variant's composed chain still invokes the generation backend —
the turn's result is whatever the backend returns, not a fixed canned
response, so the claim is false on the choice variant. -/
theorem claim4_empty_retrieval_counterexample :
    choice_process_query (fun _ => []) (fun _ => "A") "q" initialSession = "A" ∧
    choice_process_query (fun _ => []) (fun _ => "B") "q" initialSession = "B" ∧
    ("A" : String) ≠ "B" :=
  ⟨rfl, rfl, by decide⟩

/-- C4 amended: in the voice variant, whenever the retriever returns zero
passages, `process_query` returns the fixed canned response and the
generation backend is never invoked (the result is independent of the
generation function); the choice variant's composed chain invokes
generation unconditionally, zero passages included. -/
theorem claim4_empty_retrieval_short_circuit
    (retr : String → List String) (q : String) (hq : retr q = []) :
    (∀ (gen : String → String) (s : SessionState),
      voice_process_query gen (some retr) q s
        = "I couldn't find relevant information in the uploaded documents.") ∧
    (∀ (gen gen' : String → String) (s s' : SessionState),
      voice_process_query gen (some retr) q s
        = voice_process_query gen' (some retr) q s') ∧
    (∀ (retrieve : ChainInput → List String) (gen : Prompt → String)
      (input : ChainInput),
      choice_rag_chain retrieve gen input
        = gen { system := choiceSystemPrompt input.user_name
                  input.language_instruction (format_docs (retrieve input)),
                history := input.chat_history,
                question := input.question }) := by
  refine ⟨?_, ?_, fun _ _ _ => rfl⟩
  · intro gen s
    simp [voice_process_query, hq]
  · intro gen gen' s s'
    simp [voice_process_query, hq]

/-- C4 witness: a concrete empty retriever; the voice variant's result is
the canned string under two different generation backends. -/
theorem claim4_empty_retrieval_short_circuit_witness :
    (fun _ : String => ([] : List String)) "hours?" = [] ∧
    voice_process_query (fun _ => "GEN1") (some (fun _ => [])) "hours?" initialSession
      = "I couldn't find relevant information in the uploaded documents." ∧
    voice_process_query (fun _ => "GEN1") (some (fun _ => [])) "hours?" initialSession
      = voice_process_query (fun _ => "GEN2") (some (fun _ => [])) "hours?" initialSession := by
  have h := claim4_empty_retrieval_short_circuit (fun _ => []) "hours?" rfl
  exact ⟨rfl, h.1 (fun _ => "GEN1") initialSession,
    h.2.1 (fun _ => "GEN1") (fun _ => "GEN2") initialSession initialSession⟩

/-- C5: after every completed turn the history is exactly the flattening
of the five most recent (query, response) exchanges in conversational
order; its length is `min (2·turns) 10`, hence at most 10, and exactly
10 after more than 5 turns. -/
theorem claim5_history_bound (ts : List (String × String)) :
    histAfter ts = flattenPairs (lastN 5 ts) ∧
    (histAfter ts).length ≤ 10 ∧
    (histAfter ts).length = min (2 * ts.length) 10 ∧
    (5 < ts.length → (histAfter ts).length = 10) := by
  have h := histAfter_eq ts
  have hlen : (histAfter ts).length = min (2 * ts.length) 10 := by
    rw [h, flattenPairs_length, lastN_length]
    omega
  exact ⟨h, by omega, hlen, fun h5 => by omega⟩

/-- C5 witness: six concrete turns leave exactly 10 entries, the last
five exchanges flattened. -/
theorem claim5_history_bound_witness :
    5 < ([("q1", "r1"), ("q2", "r2"), ("q3", "r3"), ("q4", "r4"), ("q5", "r5"),
          ("q6", "r6")] : List (String × String)).length ∧
    (histAfter [("q1", "r1"), ("q2", "r2"), ("q3", "r3"), ("q4", "r4"),
      ("q5", "r5"), ("q6", "r6")]).length = 10 := by
  refine ⟨by decide, ?_⟩
  exact (claim5_history_bound [("q1", "r1"), ("q2", "r2"), ("q3", "r3"),
    ("q4", "r4"), ("q5", "r5"), ("q6", "r6")]).2.2.2 (by decide)

/-- C6: for a fresh connection `ws` (no pre-existing registry entry)
whose session was registered, the endpoint's guaranteed cleanup leaves
the registry exactly as it was before the connection, for either loop
exit kind: no entry for `ws` remains and the size returns to its
pre-connection value. -/
theorem claim6_cleanup_invariant (reg : Registry) (ws : Nat)
    (s : SessionState) (h : ∀ p ∈ reg, p.1 ≠ ws) :
    ∀ e : ExitKind,
      websocket_endpoint_registry reg ws (some s) e = reg ∧
      (websocket_endpoint_registry reg ws (some s) e).any (fun p => p.1 = ws)
        = false ∧
      (websocket_endpoint_registry reg ws (some s) e).length = reg.length := by
  intro e
  have heq := endpoint_cleanup_eq reg ws s h e
  refine ⟨heq, ?_, by rw [heq]⟩
  rw [heq]
  simp only [List.any_eq_false, decide_eq_true_eq]
  exact h

/-- C6 witness: a registry with one other connection; after a full
lifecycle of connection 2, ending in an unhandled error, the registry is
unchanged. -/
theorem claim6_cleanup_invariant_witness :
    (∀ p ∈ ([(1, initialSession)] : Registry), p.1 ≠ 2) ∧
    websocket_endpoint_registry [(1, initialSession)] 2 (some initialSession)
        ExitKind.unhandledError = [(1, initialSession)] ∧
    (websocket_endpoint_registry [(1, initialSession)] 2 (some initialSession)
        ExitKind.unhandledError).length = 1 := by
  have h := claim6_cleanup_invariant [(1, initialSession)] 2 initialSession
    (by decide) ExitKind.unhandledError
  exact ⟨by decide, h.1, h.2.2⟩

/-- C7: first-write-wins naming, in both variants.  Voice: from any
session state whose `user_name` holds a value, no later message of any
kind changes it (detection runs only while the name is unset).  Choice:
in any session run from the handshake state, once `user_name` has been
captured, any sequence of further messages leaves it unchanged — here
the misindented `if user_name:` (choice `main.py` line 152) re-assigns
from the stale local, but the coupling invariant `ChoiceNameInv`, which
holds at handshake and is preserved by every step, pins that local to
the stored value, so the write-back never changes it. -/
theorem claim7_first_write_wins :
    (∀ (c : Collab) (msgs : List InMsg) (s : SessionState) (n : String),
      s.user_name = some n → (wsRun c msgs s).1.user_name = some n) ∧
    (∀ (c c' : Collab) (pre post : List InMsg) (n : String),
      (choiceRun c pre choiceInit).1.session.user_name = some n →
      (choiceRun c' post (choiceRun c pre choiceInit).1).1.session.user_name
        = some n) := by
  refine ⟨fun c msgs s n h => wsRun_user_name c msgs s n h, ?_⟩
  intro c c' pre post n hn
  exact (choiceRun_name c' post (choiceRun c pre choiceInit).1
    (choiceRun_name c pre choiceInit choiceInit_nameInv).1).2 n hn

/-- C7 witness.  Voice: with the name already captured as `Alex`, a
later turn containing the detectable phrase `my name is Sam` leaves it
`Alex`.  Choice: an audio turn transcribed as `my name is alex` captures
`Alex`, and a later audio turn transcribed as `my name is sam` leaves it
`Alex`. -/
theorem claim7_first_write_wins_witness :
    ({ initialSession with user_name := some "Alex" } : SessionState).user_name
      = some "Alex" ∧
    (wsRun collab0 [InMsg.text_query "my name is Sam"]
      { initialSession with user_name := some "Alex" }).1.user_name
      = some "Alex" ∧
    (choiceRun collab0 [InMsg.audio_query "my name is alex"]
      choiceInit).1.session.user_name = some "Alex" ∧
    (choiceRun collab0 [InMsg.audio_query "my name is sam"]
      (choiceRun collab0 [InMsg.audio_query "my name is alex"]
        choiceInit).1).1.session.user_name = some "Alex" := by
  refine ⟨rfl, claim7_first_write_wins.1 collab0 _ _ "Alex" rfl, rfl, ?_⟩
  exact claim7_first_write_wins.2 collab0 collab0
    [InMsg.audio_query "my name is alex"] [InMsg.audio_query "my name is sam"]
    "Alex" rfl

/-- C8 counterexample: in the choice variant an inbound message of
unrecognized type matches no branch of the dispatch, so the handler sends
no reply at all — in particular not the structured "unsupported type"
error the claim requires. -/
theorem claim8_unsupported_type_counterexample :
    choiceStep collab0 choiceInit (InMsg.other "ping") = (choiceInit, []) :=
  rfl

/-- C8 amended: in the voice variant an unrecognized message type gets
the structured "Unsupported message type." error reply with the session
unchanged, and a subsequent valid `text_query` is processed exactly as it
would have been without the bad message; in the choice variant the bad
message is silently skipped (state unchanged, no reply), the loop equally
continuing. -/
theorem claim8_unsupported_type_resilience (c : Collab) (s : SessionState)
    (ty q : String) :
    wsStep c s (InMsg.other ty)
      = (s, [OutMsg.errorMsg "Unsupported message type."]) ∧
    wsRun c [InMsg.other ty, InMsg.text_query q] s
      = ((wsRun c [InMsg.text_query q] s).1,
         OutMsg.errorMsg "Unsupported message type."
           :: (wsRun c [InMsg.text_query q] s).2) ∧
    (∀ st : ChoiceLoopState, choiceStep c st (InMsg.other ty) = (st, [])) := by
  refine ⟨rfl, ?_, fun _ => rfl⟩
  simp [wsRun, wsStep]

/-- C9 counterexample: the voice variant's revised `process_query` never
reads the session, so its generation input is identical for session
language `hi` and `en` (shown with the identity generation backend, which
returns the prompt itself), although the claimed closed mapping resolves
`hi` and `en` to different instructions. -/
theorem claim9_language_mapping_counterexample :
    voice_process_query (fun p => p) (some (fun _ => ["doc"])) "q"
        { initialSession with language := "hi" }
      = voice_process_query (fun p => p) (some (fun _ => ["doc"])) "q"
        initialSession ∧
    resolve_language_instruction "hi" ≠ resolve_language_instruction "en" :=
  ⟨rfl, by decide⟩

/-- C9 amended: in the choice variant the language instruction passed
into generation is resolved by the closed mapping `en → English`,
`hi → Hindi`, any other code defaulting to `English` with no error, and
it is placed into the chain input verbatim; the voice variant's revised
`process_query` passes no language instruction at all — its result is
independent of the session. -/
theorem claim9_language_mapping_default (code : String)
    (hen : code ≠ "en") (hhi : code ≠ "hi") :
    resolve_language_instruction "en" = "English" ∧
    resolve_language_instruction "hi" = "Hindi" ∧
    resolve_language_instruction code = "English" ∧
    (∀ (q : String) (s : SessionState),
      (choice_chain_input q s).language_instruction
        = resolve_language_instruction s.language) ∧
    (∀ (gen : String → String) (retr : Option (String → List String))
      (q : String) (s s' : SessionState),
      voice_process_query gen retr q s = voice_process_query gen retr q s') := by
  refine ⟨rfl, rfl, ?_, fun _ _ => rfl, fun gen retr q s s' => ?_⟩
  · simp [resolve_language_instruction, hen, hhi]
  · cases retr <;> rfl

/-- C9 witness: the unrecognized code `fr` resolves to `English`. -/
theorem claim9_language_mapping_default_witness :
    ("fr" : String) ≠ "en" ∧ ("fr" : String) ≠ "hi" ∧
    resolve_language_instruction "fr" = "English" :=
  ⟨by decide, by decide,
    (claim9_language_mapping_default "fr" (by decide) (by decide)).2.2.1⟩

/-- C10: implicit history-shape invariant, in both variants — after any
message sequence from handshake, the session history has even length and
strictly alternates roles (even indices user, odd indices assistant); a
`language_switch` leaves the history unchanged and each handshake starts
it empty, so every reachable post-turn history has this shape.  In the
choice variant the only history-writing branch is the audio turn, which
performs the same append-append-trim update. -/
theorem claim10_history_shape (c : Collab) (msgs : List InMsg) :
    Even (wsRun c msgs initialSession).1.chat_history.length ∧
    (∀ i : Nat, ∀ hi : i < (wsRun c msgs initialSession).1.chat_history.length,
      ((wsRun c msgs initialSession).1.chat_history[i]?.map Prod.fst)
        = some (if i % 2 = 0 then Role.user else Role.assistant)) ∧
    (∀ lang : String,
      (wsStep c (wsRun c msgs initialSession).1
        (InMsg.language_switch lang)).1.chat_history
        = (wsRun c msgs initialSession).1.chat_history) ∧
    initialSession.chat_history = [] ∧
    Even (choiceRun c msgs choiceInit).1.session.chat_history.length ∧
    (∀ i : Nat,
      ∀ hi : i < (choiceRun c msgs choiceInit).1.session.chat_history.length,
      ((choiceRun c msgs choiceInit).1.session.chat_history[i]?.map Prod.fst)
        = some (if i % 2 = 0 then Role.user else Role.assistant)) ∧
    (∀ lang : String,
      (choiceStep c (choiceRun c msgs choiceInit).1
        (InMsg.language_switch lang)).1.session.chat_history
        = (choiceRun c msgs choiceInit).1.session.chat_history) ∧
    choiceInit.session.chat_history = [] := by
  obtain ⟨ps, hps⟩ := wsRun_shape c msgs initialSession ⟨[], rfl⟩
  obtain ⟨qs, hqs⟩ := choiceRun_shape c msgs choiceInit ⟨[], rfl⟩
  refine ⟨?_, ?_, fun lang => rfl, rfl, ?_, ?_, fun lang => rfl, rfl⟩
  · rw [hps, flattenPairs_length]
    exact even_two_mul ps.length
  · intro i hi
    rw [hps] at hi ⊢
    exact flattenPairs_get? ps i hi
  · rw [hqs, flattenPairs_length]
    exact even_two_mul qs.length
  · intro i hi
    rw [hqs] at hi ⊢
    exact flattenPairs_get? qs i hi

/-- C10 witness: after one concrete turn in each variant the history has
two entries, a user entry at index 0 and an assistant entry at
index 1 — the index-1 role and the even length are read off the claim
theorem with its bound hypothesis discharged by evaluation. -/
theorem claim10_history_shape_witness :
    (1 : Nat) < (wsRun collab0 [InMsg.text_query "hello"]
      initialSession).1.chat_history.length ∧
    ((wsRun collab0 [InMsg.text_query "hello"]
      initialSession).1.chat_history[1]?.map Prod.fst) = some Role.assistant ∧
    Even (wsRun collab0 [InMsg.text_query "hello"]
      initialSession).1.chat_history.length ∧
    (1 : Nat) < (choiceRun collab0 [InMsg.audio_query "hola"]
      choiceInit).1.session.chat_history.length ∧
    ((choiceRun collab0 [InMsg.audio_query "hola"]
      choiceInit).1.session.chat_history[1]?.map Prod.fst)
      = some Role.assistant ∧
    Even (choiceRun collab0 [InMsg.audio_query "hola"]
      choiceInit).1.session.chat_history.length := by
  have h := claim10_history_shape collab0 [InMsg.text_query "hello"]
  have hc := claim10_history_shape collab0 [InMsg.audio_query "hola"]
  have h1 := h.2.1 1 (by decide)
  have h2 := hc.2.2.2.2.2.1 1 (by decide)
  exact ⟨by decide, by simpa using h1, h.1, by decide, by simpa using h2,
    hc.2.2.2.2.1⟩

end VoiceBot
